import Mathlib

/-!
# Verification of the delivery-plan assignment-and-routing engine

The repository `Mahen65/delivery-plan` ships a React dashboard whose
TypeScript sources (`delivery-app/src/interfaces.ts`, `delivery-app/src/api.ts`,
pages and components) are CRUD plumbing around a FastAPI backend.  The
assignment-and-routing engine itself (Geo primitives, Eligibility Filter,
Route Estimator, Assignment Solver, Planning Session) is the backend service:
its code is not among the available sources, only its declared result shapes
(`interfaces.ts`: `Delivery`, `Rider`, `PlanningResult`) and its caller
(`api.ts`: `runPlanningAgent`).  Following the specification document, the
engine is modelled here from the spec's own words; the HTTP helper `callApi`
is embedded directly from `api.ts`.

Numeric quantities of the engine model are kept generic over a
`LinearOrderedField` so that the model is executable at `ℚ` while the
haversine geo distance, which is real-valued, instantiates the same model
at `ℝ`.
-/

/-- Modelled from the spec: §3 "Coordinate: latitude/longitude pair (degrees,
signed decimal)"; fields mirror the `*_lat` / `*_lon` pairs of
`interfaces.ts`.  Degrees are kept as rationals so that validation and the
solver are executable; the geo distance casts them into `ℝ`. -/
structure Coordinate where
  lat : ℚ
  lon : ℚ
deriving DecidableEq, Repr

/-- Modelled from the spec: §3 coordinate invariant
"−90 ≤ lat ≤ 90, −180 ≤ lon ≤ 180". -/
def validCoordinate (c : Coordinate) : Bool :=
  decide (-90 ≤ c.lat ∧ c.lat ≤ 90 ∧ -180 ≤ c.lon ∧ c.lon ≤ 180)

/-- Modelled from the spec: §3 "status ∈ {pending, assigned}"
(`Delivery.status` in `interfaces.ts` is a string with these two values). -/
inductive DeliveryStatus where
  | pending
  | assigned
deriving DecidableEq, Repr

/-- Modelled from the spec: §3 Delivery.  Field names follow
`interfaces.ts` (`id`, `weight_kg`, `volume_m3`, `delivery_window_start`,
`delivery_window_end`, `status`); the two coordinate pairs are grouped as
`origin` / `destination`.  Window timestamps are modelled as rational time
values; display-only fields (addresses, description, audit timestamps) are
omitted, as are the solver-written output fields (`assigned_rider_id`,
`route_details`), which this model returns in the `PlanningResult` instead
of mutating in place. -/
structure Delivery where
  id : ℕ
  origin : Coordinate
  destination : Coordinate
  weight_kg : ℚ
  volume_m3 : ℚ
  delivery_window_start : ℚ
  delivery_window_end : ℚ
  status : DeliveryStatus
deriving DecidableEq, Repr

/-- Modelled from the spec: §3 Rider.  Field names follow `interfaces.ts`
(`id`, `capacity_weight_kg`, `capacity_volume_m3`, `is_available`); the
optional `current_location_lat`/`current_location_lon` pair is grouped as
`current_location : Option Coordinate` ("absence means location unknown"),
and the optional `shift_start`/`shift_end` pair as a single optional window
("absence means always on shift").  Display-only fields (name, contact,
vehicle type, audit timestamps) are omitted. -/
structure Rider where
  id : ℕ
  capacity_weight_kg : ℚ
  capacity_volume_m3 : ℚ
  current_location : Option Coordinate
  is_available : Bool
  shift_window : Option (ℚ × ℚ)
deriving DecidableEq, Repr

/-- Modelled from the spec: §6 `config: {detour_factor: float > 1.0,
average_speed_kmh: float > 0}` — the two named, overridable route-estimation
constants of §4.3. -/
structure Config (α : Type) where
  detour_factor : α
  average_speed_kmh : α
deriving DecidableEq, Repr

/-- Modelled from the spec: §7 ConfigurationError condition — the
configuration is valid when `detour_factor > 1.0` and
`average_speed_kmh > 0`. -/
def validConfig {α : Type} [LinearOrderedField α] (cfg : Config α) : Bool :=
  decide (1 < cfg.detour_factor ∧ 0 < cfg.average_speed_kmh)

/-- Modelled from the spec: §7 ValidationError conditions for one delivery —
coordinates in range, weight and volume positive, window start before
window end. -/
def validDelivery (d : Delivery) : Bool :=
  validCoordinate d.origin && validCoordinate d.destination &&
    decide (0 < d.weight_kg ∧ 0 < d.volume_m3 ∧
      d.delivery_window_start < d.delivery_window_end)

/-- Modelled from the spec: §7 ValidationError conditions for one rider —
positive capacities and, when a current location is present, coordinates in
range. -/
def validRider (r : Rider) : Bool :=
  decide (0 < r.capacity_weight_kg ∧ 0 < r.capacity_volume_m3) &&
    (match r.current_location with
     | none => true
     | some c => validCoordinate c)

/-- Modelled from the spec: §7 error taxonomy — the two run-failing error
kinds (`NoEligibleRider` is a per-delivery outcome, not a run failure). -/
inductive PlanError where
  | validationError
  | configurationError
deriving DecidableEq, Repr

/-- Modelled from the spec: §4.2 eligibility condition 2 — the rider's
weight and volume capacities each cover the delivery. -/
def capacityOk (d : Delivery) (r : Rider) : Bool :=
  decide (d.weight_kg ≤ r.capacity_weight_kg ∧ d.volume_m3 ≤ r.capacity_volume_m3)

/-- Modelled from the spec: §4.2 eligibility condition 3 — if the rider has
a shift window it fully contains the delivery window; riders with no shift
window always pass. -/
def shiftOk (d : Delivery) (r : Rider) : Bool :=
  match r.shift_window with
  | none => true
  | some (s, e) =>
      decide (s ≤ d.delivery_window_start ∧ d.delivery_window_end ≤ e)

/-- Modelled from the spec: §4.2 eligibility condition 4 — the rider has a
known current location. -/
def locationOk (r : Rider) : Bool :=
  r.current_location.isSome

/-- Modelled from the spec: §4.2 eligibility predicate, the conjunction of
the four conditions in their stated order: availability, capacity, shift
window, known location. -/
def eligible (d : Delivery) (r : Rider) : Bool :=
  r.is_available && capacityOk d r && shiftOk d r && locationOk r

/-- Modelled from the spec: §4.2 — the rejection reason is drawn from the
first condition that eliminated every remaining candidate, in priority
order availability > capacity > shift window > location. -/
inductive RejectReason where
  | availability
  | capacity
  | shiftWindow
  | location
deriving DecidableEq, Repr

/-- Modelled from the spec: §4.2 — when no rider in `pool` is eligible for
`d`, the reason reported is determined by filtering the pool through the
four conditions in priority order and naming the first filter that empties
the remaining candidate set. -/
def rejectionReason (d : Delivery) (pool : List Rider) : RejectReason :=
  let avail := pool.filter (fun r => r.is_available)
  if avail.isEmpty then .availability
  else
    let cap := avail.filter (fun r => capacityOk d r)
    if cap.isEmpty then .capacity
    else
      let sh := cap.filter (fun r => shiftOk d r)
      if sh.isEmpty then .shiftWindow
      else .location

/-- Modelled from the spec: §4.4c ranking key — eligible riders are ranked
by ascending `Geo.distance(rider.current_location, delivery.origin)` with
ties broken by ascending rider identifier, i.e. by the lexicographic order
on this (distance, id) pair.  Eligible riders always carry a location
(§4.2 condition 4); `getD` supplies an irrelevant default so the key is
total on all riders. -/
def rankKey {α : Type} (dist : Coordinate → Coordinate → α) (d : Delivery)
    (r : Rider) : α × ℕ :=
  (dist (r.current_location.getD d.origin) d.origin, r.id)

/-- Modelled from the spec: §4.4c — the lexicographic comparison on
(distance, rider id) keys: strictly smaller distance first, equal distances
fall back to the rider identifier.  This is the "deterministic total order"
of the spec. -/
def lexLE {α : Type} [LinearOrderedField α] (k k' : α × ℕ) : Bool :=
  decide (k.1 < k'.1 ∨ (k.1 = k'.1 ∧ k.2 ≤ k'.2))

/-- Modelled from the spec: §4.4d — select the top-ranked rider: the
minimum of the eligible list under the lexicographic (distance, id) order;
`none` exactly when the list is empty. -/
def selectBest {α : Type} [LinearOrderedField α] (key : Rider → α × ℕ) :
    List Rider → Option Rider
  | [] => none
  | r :: rest =>
      match selectBest key rest with
      | none => some r
      | some b => if lexLE (key r) (key b) then some r else some b

/-- Modelled from the spec: §3 RouteEstimate / `route_details` of
`interfaces.ts` — field names follow the source (`distance_km`,
`estimated_time_minutes`, `waypoints`). -/
structure RouteEstimate (α : Type) where
  distance_km : α
  estimated_time_minutes : α
  waypoints : List Coordinate
deriving DecidableEq, Repr

/-- Modelled from the spec: §4.3 — the arithmetic mean of latitudes and
longitudes (straight-line midpoint, not geodesic). -/
def geoMidpoint (a b : Coordinate) : Coordinate :=
  ⟨(a.lat + b.lat) / 2, (a.lon + b.lon) / 2⟩

/-- Modelled from the spec: §4.3 Route Estimator —
`distance = Geo.distance(origin, destination) * detour_factor`,
`duration = distance / average_speed_kmh * 60`,
`waypoints = [origin, midpoint origin destination, destination]`.
Pure and total: it is a Lean function, defined on all coordinate pairs. -/
def routeEstimate {α : Type} [LinearOrderedField α]
    (dist : Coordinate → Coordinate → α) (cfg : Config α)
    (origin destination : Coordinate) : RouteEstimate α :=
  let dkm := dist origin destination * cfg.detour_factor
  { distance_km := dkm
    estimated_time_minutes := dkm / cfg.average_speed_kmh * 60
    waypoints := [origin, geoMidpoint origin destination, destination] }

/-- Modelled from the spec: §3 Assignment output record — field names follow
the `PlanningResult.assignments` element shape of `interfaces.ts`
(`delivery_id`, `rider_id`, `reason`, `route_details`). -/
structure Assignment (α : Type) where
  delivery_id : ℕ
  rider_id : ℕ
  reason : String
  route_details : RouteEstimate α
deriving DecidableEq, Repr

/-- Modelled from the spec: §4.4 state carried across the run — the working
pool of still-unconsumed riders (consumption modelled as removal from the
pool, per the §9 exclusion-set design note), the accumulator of
Assignments, and the accumulator of unassigned delivery identifiers with
their rejection reasons. -/
structure SolverState (α : Type) where
  pool : List Rider
  assignments : List (Assignment α)
  unassigned : List (ℕ × RejectReason)
deriving DecidableEq, Repr

/-- Modelled from the spec: §4.4 step 1 for a single delivery — already
`assigned` deliveries are passed through untouched (§6); otherwise the
eligible riders among the unconsumed pool are computed (§4.2), an empty
list records the delivery as unassigned with the filter's reason, and a
nonempty list selects the top-ranked rider, consumes it (by identifier,
unique per §3), and emits an Assignment with the route estimate from the
delivery's origin to its destination.  The reason string states the
selection basis; the spec gives its exact wording only as an example, so a
fixed selection-basis phrase is used. -/
def solveStep {α : Type} [LinearOrderedField α]
    (dist : Coordinate → Coordinate → α) (cfg : Config α)
    (st : SolverState α) (d : Delivery) : SolverState α :=
  if d.status = .pending then
    match selectBest (rankKey dist d) (st.pool.filter (fun r => eligible d r)) with
    | none =>
        { st with unassigned := st.unassigned ++ [(d.id, rejectionReason d st.pool)] }
    | some r =>
        { pool := st.pool.filter (fun s => s.id ≠ r.id)
          assignments := st.assignments ++
            [{ delivery_id := d.id
               rider_id := r.id
               reason := "nearest available rider, capacity sufficient"
               route_details := routeEstimate dist cfg d.origin d.destination }]
          unassigned := st.unassigned }
  else st

/-- Modelled from the spec: §4.4 — one linear pass over the deliveries in
the caller-supplied order, threading the solver state. -/
def runSolver {α : Type} [LinearOrderedField α]
    (dist : Coordinate → Coordinate → α) (cfg : Config α)
    (deliveries : List Delivery) (riders : List Rider) : SolverState α :=
  deliveries.foldl (solveStep dist cfg) ⟨riders, [], []⟩

/-- Modelled from the spec: §3 PlanningResult — field names follow
`interfaces.ts` (`assignments`, `unassigned_deliveries`, `message`). -/
structure PlanningResult (α : Type) where
  assignments : List (Assignment α)
  unassigned_deliveries : List ℕ
  message : String
deriving DecidableEq, Repr

/-- Modelled from the spec: §6 `plan` and §7 error handling — an invalid
configuration fails the run before processing any delivery
(ConfigurationError), malformed input fails the entire run before any
mutation (ValidationError), and otherwise the solver runs one pass and the
PlanningResult is assembled: assignments in processing order, unassigned
identifiers, and the "<n> assigned, <m> unassigned" summary message. -/
def plan {α : Type} [LinearOrderedField α]
    (dist : Coordinate → Coordinate → α) (cfg : Config α)
    (deliveries : List Delivery) (riders : List Rider) :
    Except PlanError (PlanningResult α) :=
  if validConfig cfg = false then .error .configurationError
  else if (deliveries.all validDelivery && riders.all validRider) = false then
    .error .validationError
  else
    let st := runSolver dist cfg deliveries riders
    .ok { assignments := st.assignments
          unassigned_deliveries := st.unassigned.map Prod.fst
          message := toString st.assignments.length ++ " assigned, " ++
            toString st.unassigned.length ++ " unassigned" }

/-- Modelled from the spec: §4.1 Geo primitives — the fixed mean Earth
radius 6371.0 km. -/
noncomputable def earthRadiusKm : ℝ := 6371

/-- Degrees to radians. -/
noncomputable def deg2rad (x : ℚ) : ℝ := (x : ℝ) * Real.pi / 180

/-- Modelled from the spec: §4.1 `distance(a, b)` — great-circle distance
by the haversine formula on the fixed mean Earth radius 6371.0 km:
`2 R arcsin (sqrt (sin² (Δφ/2) + cos φa cos φb sin² (Δλ/2)))` with
latitudes and longitudes converted from degrees to radians. -/
noncomputable def haversineDist (a b : Coordinate) : ℝ :=
  let pha := deg2rad a.lat
  let phb := deg2rad b.lat
  let la := deg2rad a.lon
  let lb := deg2rad b.lon
  2 * earthRadiusKm *
    Real.arcsin (Real.sqrt (Real.sin ((phb - pha) / 2) ^ 2 +
      Real.cos pha * Real.cos phb * Real.sin ((lb - la) / 2) ^ 2))

/-- From `api.ts` lines 50–65: the shape of `errorData.detail` in a non-ok
JSON body — absent (or falsy, e.g. the empty string), a non-empty string,
an array of entries each optionally carrying a `msg` field, or any other
JSON value (represented by its `JSON.stringify` rendering). -/
inductive Detail where
  | absent
  | strDetail (s : String)
  | arrDetail (msgs : List (Option String))
  | otherDetail (rendered : String)
deriving DecidableEq, Repr

/-- From `api.ts` lines 48–65: the error message assembled from
`errorData.detail`.  A falsy `detail` (absent or the empty string) keeps
the default "An unknown error occurred."; a non-empty array maps each
entry to its `msg` (or "Unknown error") and joins with ", "; a string is
used as-is; anything else (including the truthy empty array, for which
`Array.isArray && length > 0` fails) is `JSON.stringify`ed. -/
def errorMessageOfDetail : Detail → String
  | .absent => "An unknown error occurred."
  | .strDetail s => if s = "" then "An unknown error occurred." else s
  | .arrDetail msgs =>
      if msgs.length > 0 then
        String.intercalate ", " (msgs.map (fun o => o.getD "Unknown error"))
      else "[]"
  | .otherDetail rendered => rendered

/-- From `api.ts`: a JSON body as consumed by `callApi` — its `detail`
field (for the error path) and an opaque rendering of the whole value (the
data returned on success). -/
structure JsonBody where
  detail : Detail
  rendered : String
deriving DecidableEq, Repr

/-- From `api.ts`: the empty object `{}` returned for a 204 response. -/
def emptyJsonBody : JsonBody := ⟨.absent, "\x7b\x7d"⟩

/-- From `api.ts` line 44: the outcome of `fetch` — either the fetch
itself rejected (network error), or a response arrived carrying its `ok`
flag, its status code, and the outcome of `response.json()` (which may
itself reject on a non-JSON body). -/
structure HttpResponse where
  ok : Bool
  status : ℕ
  json : Except String JsonBody
deriving Repr

/-- From `api.ts` line 44: `fetch` either throws or yields a response. -/
inductive FetchResult where
  | fetchThrew (msg : String)
  | gotResponse (r : HttpResponse)
deriving Repr

/-- From `api.ts` lines 43–79, `callApi`: inside the `try`, a non-ok
response awaits the JSON body (`await response.json()`, line 47),
assembles a message from `detail` and throws it; a 204 response resolves
to `{}`; otherwise line 74 is `return response.json();` — **without**
`await`, so by JavaScript async semantics the returned promise is not
intercepted by the `catch` and a parse rejection on this path propagates
raw, modelled here by returning `r.json` unchanged.  The throws that do
happen inside the `try` — the fetch rejection, the non-ok path's awaited
`response.json()` rejection, and the explicit non-ok throw — are caught by
the single `catch`, which rethrows `Error` with the message prefixed by
"Network error or fetch failed: ".  The endpoint, method, body and token
only shape the request, not this control flow, so they are not modelled. -/
def callApi (fr : FetchResult) : Except String JsonBody :=
  match fr with
  | .fetchThrew msg => .error ("Network error or fetch failed: " ++ msg)
  | .gotResponse r =>
      if r.ok = false then
        match r.json with
        | .error msg => .error ("Network error or fetch failed: " ++ msg)
        | .ok body =>
            .error ("Network error or fetch failed: " ++
              errorMessageOfDetail body.detail)
      else if r.status = 204 then .ok emptyJsonBody
      else r.json

/-- From `api.ts` lines 134–135: `runPlanningAgent` delegates to `callApi`
(`POST /deliveries/assign_and_plan`); the endpoint, method and token do not
affect `callApi`'s result handling, so its observable outcome is that of
`callApi` on the request's fetch outcome. -/
def runPlanningAgent (fr : FetchResult) : Except String JsonBody :=
  callApi fr

instance {ε σ : Type} [DecidableEq ε] [DecidableEq σ] : DecidableEq (Except ε σ) :=
  fun x y =>
    match x, y with
    | .ok a, .ok b =>
        if h : a = b then isTrue (by rw [h]) else isFalse (by simp [h])
    | .error e, .error f =>
        if h : e = f then isTrue (by rw [h]) else isFalse (by simp [h])
    | .ok _, .error _ => isFalse (by simp)
    | .error _, .ok _ => isFalse (by simp)

/-- C4: a rider is eligible for a delivery if and only if all four
conditions hold — availability, weight and volume capacity covering the
delivery, full containment of the delivery window in the shift window when
one is present (no shift window passes), and a known current location. -/
theorem eligible_iff_four_conditions (d : Delivery) (r : Rider) :
    eligible d r = true ↔
      (r.is_available = true ∧
        (d.weight_kg ≤ r.capacity_weight_kg ∧ d.volume_m3 ≤ r.capacity_volume_m3) ∧
        (∀ s e, r.shift_window = some (s, e) →
          s ≤ d.delivery_window_start ∧ d.delivery_window_end ≤ e) ∧
        r.current_location ≠ none) := by
  unfold eligible capacityOk shiftOk locationOk
  cases h : r.shift_window with
  | none =>
      simp [h, Option.isSome_iff_ne_none]
      tauto
  | some p =>
      cases p with
      | mk s e =>
          simp [h, Option.isSome_iff_ne_none]
          tauto

/-- C7: the Route Estimator returns
`distance = dist origin destination * detour_factor`,
`duration = distance / average_speed_kmh * 60`, and
`waypoints = [origin, midpoint, destination]` with the midpoint the
arithmetic mean of latitudes and longitudes; being a total function it
never fails on any coordinate pair. -/
theorem routeEstimate_spec {α : Type} [LinearOrderedField α]
    (dist : Coordinate → Coordinate → α) (cfg : Config α)
    (origin destination : Coordinate) :
    (routeEstimate dist cfg origin destination).distance_km =
        dist origin destination * cfg.detour_factor ∧
      (routeEstimate dist cfg origin destination).estimated_time_minutes =
        (routeEstimate dist cfg origin destination).distance_km /
          cfg.average_speed_kmh * 60 ∧
      (routeEstimate dist cfg origin destination).waypoints =
        [origin,
          ⟨(origin.lat + destination.lat) / 2, (origin.lon + destination.lon) / 2⟩,
          destination] ∧
      (routeEstimate dist cfg origin destination).waypoints.head? = some origin ∧
      (routeEstimate dist cfg origin destination).waypoints.getLast? = some destination :=
  ⟨rfl, rfl, rfl, rfl, rfl⟩

/-- C3: `plan` is deterministic — two invocations on identical delivery
and rider snapshots and identical configuration produce identical
PlanningResults (assignment order, reason strings and route numbers
included, since the results are equal as values). -/
theorem plan_deterministic {α : Type} [LinearOrderedField α]
    (dist : Coordinate → Coordinate → α) (cfg cfg' : Config α)
    (ds ds' : List Delivery) (rs rs' : List Rider)
    (hc : cfg = cfg') (hd : ds = ds') (hr : rs = rs') :
    plan dist cfg ds rs = plan dist cfg' ds' rs' := by
  subst hc
  subst hd
  subst hr
  rfl

theorem plan_deterministic_witness :
    plan (fun _ _ => (0 : ℚ)) ⟨2, 30⟩ [] [] = plan (fun _ _ => (0 : ℚ)) ⟨2, 30⟩ [] [] :=
  plan_deterministic (fun _ _ => (0 : ℚ)) ⟨2, 30⟩ ⟨2, 30⟩ [] [] [] [] rfl rfl rfl

/-- C9: an invalid configuration (`detour_factor ≤ 1` or
`average_speed_kmh ≤ 0`) fails the whole run with ConfigurationError, and
a valid configuration with malformed input (some delivery or rider failing
validation) fails it with ValidationError; in both cases `plan` returns an
error and no PlanningResult, partial or otherwise, reaches the caller. -/
theorem plan_fails_on_invalid_input {α : Type} [LinearOrderedField α]
    (dist : Coordinate → Coordinate → α) (cfg : Config α)
    (ds : List Delivery) (rs : List Rider) :
    (validConfig cfg = false →
        plan dist cfg ds rs = .error .configurationError) ∧
      (validConfig cfg = true →
        ds.all validDelivery = false ∨ rs.all validRider = false →
        plan dist cfg ds rs = .error .validationError) := by
  constructor
  · intro h
    simp [plan, h]
  · intro hc h
    rcases h with h | h <;> simp [plan, hc, h]

theorem plan_fails_on_invalid_input_witness :
    plan (fun _ _ => (0 : ℚ)) ⟨1, 30⟩ [] [] = .error .configurationError :=
  (plan_fails_on_invalid_input (fun _ _ => (0 : ℚ)) ⟨1, 30⟩ [] []).1 (by decide)

/-- C10 (amended): `callApi` never resolves with data for a failed
request, and a fetch rejection or a non-ok response status produces a
rejection whose message starts with "Network error or fetch failed: ";
but a JSON-parse rejection on the ok, non-204 path — where line 74 returns
`response.json()` without `await`, bypassing the `catch` — rejects with
the raw parse error, unprefixed.  An ok response with status 204 resolves
to the empty object, and `runPlanningAgent` (like every exported `api.ts`
function) delegates to `callApi`, so the same outcomes apply to it. -/
theorem callApi_failure_contract :
    (∀ msg, callApi (.fetchThrew msg) =
        .error ("Network error or fetch failed: " ++ msg)) ∧
      (∀ r : HttpResponse, r.ok = false →
        ∃ m, callApi (.gotResponse r) =
          .error ("Network error or fetch failed: " ++ m)) ∧
      (∀ r : HttpResponse, ∀ m, r.ok = true → r.status ≠ 204 →
        r.json = .error m →
        callApi (.gotResponse r) = .error m) ∧
      (∀ r : HttpResponse, r.ok = true → r.status = 204 →
        callApi (.gotResponse r) = .ok emptyJsonBody) ∧
      (∀ fr, runPlanningAgent fr = callApi fr) := by
  refine ⟨fun msg => rfl, ?_, ?_, ?_, fun fr => rfl⟩
  · intro r hok
    cases hj : r.json with
    | error m => exact ⟨m, by simp [callApi, hok, hj]⟩
    | ok body => exact ⟨errorMessageOfDetail body.detail, by simp [callApi, hok, hj]⟩
  · intro r m hok hst hj
    simp [callApi, hok, hst, hj]
  · intro r hok hst
    simp [callApi, hok, hst]

theorem callApi_failure_contract_witness :
    callApi (.gotResponse ⟨true, 204, .ok ⟨.absent, "ignored"⟩⟩) = .ok emptyJsonBody :=
  callApi_failure_contract.2.2.2.1 ⟨true, 204, .ok ⟨.absent, "ignored"⟩⟩ rfl rfl

set_option maxRecDepth 4096 in
/-- C10 counterexample: on an ok response with status 200 whose JSON body
fails to parse, `api.ts` line 74 returns `response.json()` without
`await`, so the rejection bypasses the `catch`: `callApi` rejects with the
raw parse error, whose message does not begin with
"Network error or fetch failed: ", refuting the original claim's prefix
property on this path. -/
theorem callApi_unprefixed_rejection_cex :
    callApi (.gotResponse ⟨true, 200, .error "SyntaxError: Unexpected token"⟩) =
        .error "SyntaxError: Unexpected token" ∧
      "SyntaxError: Unexpected token".startsWith "Network error or fetch failed: " = false :=
  ⟨rfl, rfl⟩

lemma lexLE_iff {α : Type} [LinearOrderedField α] (k k' : α × ℕ) :
    lexLE k k' = true ↔ (k.1 < k'.1 ∨ (k.1 = k'.1 ∧ k.2 ≤ k'.2)) := by
  simp [lexLE]

lemma lexLE_refl {α : Type} [LinearOrderedField α] (k : α × ℕ) : lexLE k k = true := by
  simp [lexLE]

lemma lexLE_trans {α : Type} [LinearOrderedField α] {a b c : α × ℕ}
    (h₁ : lexLE a b = true) (h₂ : lexLE b c = true) : lexLE a c = true := by
  rw [lexLE_iff] at *
  rcases h₁ with h₁ | ⟨he₁, hn₁⟩ <;> rcases h₂ with h₂ | ⟨he₂, hn₂⟩
  · exact Or.inl (lt_trans h₁ h₂)
  · exact Or.inl (he₂ ▸ h₁)
  · exact Or.inl (he₁ ▸ h₂)
  · exact Or.inr ⟨he₁.trans he₂, hn₁.trans hn₂⟩

lemma lexLE_total {α : Type} [LinearOrderedField α] (a b : α × ℕ) :
    lexLE a b = true ∨ lexLE b a = true := by
  rw [lexLE_iff, lexLE_iff]
  rcases lt_trichotomy a.1 b.1 with h | h | h
  · exact Or.inl (Or.inl h)
  · rcases Nat.le_total a.2 b.2 with hn | hn
    · exact Or.inl (Or.inr ⟨h, hn⟩)
    · exact Or.inr (Or.inr ⟨h.symm, hn⟩)
  · exact Or.inr (Or.inl h)

lemma lexLE_antisymm {α : Type} [LinearOrderedField α] {a b : α × ℕ}
    (h₁ : lexLE a b = true) (h₂ : lexLE b a = true) : a = b := by
  rw [lexLE_iff] at h₁ h₂
  rcases h₁ with h₁ | ⟨he₁, hn₁⟩ <;> rcases h₂ with h₂ | ⟨he₂, hn₂⟩
  · exact absurd (lt_trans h₁ h₂) (lt_irrefl _)
  · exact absurd h₁ (he₂ ▸ lt_irrefl _)
  · exact absurd h₂ (he₁ ▸ lt_irrefl _)
  · exact Prod.ext he₁ (Nat.le_antisymm hn₁ hn₂)

lemma selectBest_eq_none {α : Type} [LinearOrderedField α] (key : Rider → α × ℕ)
    (l : List Rider) : selectBest key l = none ↔ l = [] := by
  cases l with
  | nil => simp [selectBest]
  | cons r rest =>
      simp only [selectBest]
      cases h : selectBest key rest with
      | none => simp
      | some b => by_cases hc : lexLE (key r) (key b) = true <;> simp [hc]

lemma selectBest_mem {α : Type} [LinearOrderedField α] (key : Rider → α × ℕ) :
    ∀ {l : List Rider} {r : Rider}, selectBest key l = some r → r ∈ l := by
  intro l
  induction l with
  | nil => intro r h; simp [selectBest] at h
  | cons a rest ih =>
      intro r h
      simp only [selectBest] at h
      cases hs : selectBest key rest with
      | none =>
          rw [hs] at h
          simp at h
          simp [h]
      | some b =>
          rw [hs] at h
          simp at h
          split at h
          · simp at h
            simp [h]
          · simp at h
            exact List.mem_cons_of_mem a (ih (h ▸ hs))

lemma selectBest_min {α : Type} [LinearOrderedField α] (key : Rider → α × ℕ) :
    ∀ {l : List Rider} {r : Rider}, selectBest key l = some r →
      ∀ s ∈ l, lexLE (key r) (key s) = true := by
  intro l
  induction l with
  | nil => intro r h; simp [selectBest] at h
  | cons a rest ih =>
      intro r h s hs
      simp only [selectBest] at h
      cases hsel : selectBest key rest with
      | none =>
          rw [hsel] at h
          simp at h
          have hrest : rest = [] := (selectBest_eq_none key rest).mp hsel
          subst hrest
          simp at hs
          subst hs
          subst h
          exact lexLE_refl _
      | some b =>
          rw [hsel] at h
          by_cases hc : lexLE (key a) (key b) = true
          · simp [hc] at h
            subst h
            rcases List.mem_cons.mp hs with hsa | hsrest
            · subst hsa
              exact lexLE_refl _
            · exact lexLE_trans hc (ih hsel s hsrest)
          · simp [hc] at h
            subst h
            rcases List.mem_cons.mp hs with hsa | hsrest
            · subst hsa
              rcases lexLE_total (key s) (key b) with ht | ht
              · exact absurd ht hc
              · exact ht
            · exact ih hsel s hsrest

/-- Helper: the identifiers of the pending deliveries of the input, in
order. -/
def pendingIds (ds : List Delivery) : List ℕ :=
  (ds.filter (fun d => decide (d.status = .pending))).map Delivery.id

/-- Helper: how often delivery identifier `i` occurs in a solver state,
counting both the assignments and the unassigned entries. -/
def countDel {α : Type} (st : SolverState α) (i : ℕ) : ℕ :=
  st.assignments.countP (fun a => a.delivery_id == i) +
    (st.unassigned.map Prod.fst).count i

lemma countDel_solveStep {α : Type} [LinearOrderedField α]
    (dist : Coordinate → Coordinate → α) (cfg : Config α)
    (st : SolverState α) (d : Delivery) (i : ℕ) :
    countDel (solveStep dist cfg st d) i =
      countDel st i + (if d.status = .pending ∧ d.id = i then 1 else 0) := by
  unfold solveStep
  by_cases hs : d.status = .pending
  · simp only [hs, if_true]
    cases hsel : selectBest (rankKey dist d) (st.pool.filter fun r => eligible d r) with
    | none =>
        by_cases hid : d.id = i <;>
          (simp [countDel, hs, hid, List.count_append, List.count_cons] <;> omega)
    | some r =>
        by_cases hid : d.id = i <;>
          (simp [countDel, hs, hid, List.countP_append, List.countP_cons] <;> omega)
  · simp [hs, countDel]

lemma countDel_foldl {α : Type} [LinearOrderedField α]
    (dist : Coordinate → Coordinate → α) (cfg : Config α) :
    ∀ (ds : List Delivery) (st : SolverState α) (i : ℕ),
      countDel (ds.foldl (solveStep dist cfg) st) i =
        countDel st i + (pendingIds ds).count i := by
  intro ds
  induction ds with
  | nil => intro st i; simp [pendingIds]
  | cons d rest ih =>
      intro st i
      simp only [List.foldl_cons]
      rw [ih, countDel_solveStep]
      by_cases hs : d.status = .pending
      · by_cases hid : d.id = i <;>
          simp [pendingIds, hs, hid, List.count_cons, List.filter_cons] <;> omega
      · simp [pendingIds, hs, List.filter_cons]

lemma plan_ok_elim {α : Type} [LinearOrderedField α]
    (dist : Coordinate → Coordinate → α) (cfg : Config α)
    (ds : List Delivery) (rs : List Rider) (res : PlanningResult α)
    (h : plan dist cfg ds rs = .ok res) :
    res.assignments = (runSolver dist cfg ds rs).assignments ∧
      res.unassigned_deliveries = (runSolver dist cfg ds rs).unassigned.map Prod.fst := by
  unfold plan at h
  split at h
  · cases h
  · split at h
    · cases h
    · cases h
      exact ⟨rfl, rfl⟩

/-- Helper: the run invariant for rider consumption — assigned rider
identifiers are pairwise distinct, and no rider still in the working pool
carries an already-assigned identifier. -/
def ridersInvariant {α : Type} (st : SolverState α) : Prop :=
  (st.assignments.map Assignment.rider_id).Nodup ∧
    ∀ r ∈ st.pool, r.id ∉ st.assignments.map Assignment.rider_id

lemma solveStep_ridersInvariant {α : Type} [LinearOrderedField α]
    (dist : Coordinate → Coordinate → α) (cfg : Config α)
    (st : SolverState α) (d : Delivery) (h : ridersInvariant st) :
    ridersInvariant (solveStep dist cfg st d) := by
  unfold solveStep
  by_cases hs : d.status = .pending
  · simp only [hs, if_true]
    cases hsel : selectBest (rankKey dist d) (st.pool.filter fun r => eligible d r) with
    | none => exact ⟨h.1, h.2⟩
    | some r =>
        have hrpool : r ∈ st.pool :=
          (List.mem_filter.mp (selectBest_mem _ hsel)).1
        obtain ⟨h1, h2⟩ := h
        constructor
        · simp only [List.map_append, List.map_cons, List.map_nil]
          rw [List.nodup_append]
          refine ⟨h1, List.nodup_singleton _, ?_⟩
          intro x hx
          simp only [List.mem_singleton]
          intro hxr
          subst hxr
          exact (h2 r hrpool) hx
        · intro s hsmem
          have hspool : s ∈ st.pool := (List.mem_filter.mp hsmem).1
          have hsneq : s.id ≠ r.id := by
            have := (List.mem_filter.mp hsmem).2
            simpa using this
          simp only [List.map_append, List.map_cons, List.map_nil, List.mem_append,
            List.mem_singleton]
          rintro (hx | hx)
          · exact (h2 s hspool) hx
          · exact hsneq hx
  · simpa [hs] using h

lemma foldl_ridersInvariant {α : Type} [LinearOrderedField α]
    (dist : Coordinate → Coordinate → α) (cfg : Config α) :
    ∀ (ds : List Delivery) (st : SolverState α), ridersInvariant st →
      ridersInvariant (ds.foldl (solveStep dist cfg) st) := by
  intro ds
  induction ds with
  | nil => intro st h; simpa using h
  | cons d rest ih =>
      intro st h
      simp only [List.foldl_cons]
      exact ih _ (solveStep_ridersInvariant dist cfg st d h)

/-- C2: no rider identifier appears in more than one Assignment of a
successful planning run — once selected for a delivery, a rider is removed
from the working pool (consumed), so no later delivery of the same run can
be paired with it. -/
theorem plan_rider_at_most_once {α : Type} [LinearOrderedField α]
    (dist : Coordinate → Coordinate → α) (cfg : Config α)
    (ds : List Delivery) (rs : List Rider) (res : PlanningResult α)
    (h : plan dist cfg ds rs = .ok res) :
    (res.assignments.map Assignment.rider_id).Nodup := by
  obtain ⟨ha, _⟩ := plan_ok_elim dist cfg ds rs res h
  rw [ha]
  exact (foldl_ridersInvariant dist cfg ds ⟨rs, [], []⟩
    ⟨List.nodup_nil, by intro r _; simp⟩).1

theorem plan_rider_at_most_once_witness :
    ((PlanningResult.mk ([] : List (Assignment ℚ)) [] "0 assigned, 0 unassigned").assignments.map
      Assignment.rider_id).Nodup :=
  plan_rider_at_most_once (fun _ _ => (0 : ℚ)) ⟨2, 30⟩ [] []
    ⟨[], [], "0 assigned, 0 unassigned"⟩ (by decide)

/-- C1 (amended): every delivery identifier of a *pending* delivery of the
input appears, on a successful run with pairwise-distinct pending
identifiers, in exactly one of the two output collections — either as the
`delivery_id` of exactly one Assignment (and not among the unassigned), or
exactly once among `unassigned_deliveries` (and in no Assignment).
Already-`assigned` input deliveries are excluded from consideration by the
spec (§6) and appear in neither collection, which is what the original
claim misses. -/
theorem plan_partitions_pending {α : Type} [LinearOrderedField α]
    (dist : Coordinate → Coordinate → α) (cfg : Config α)
    (ds : List Delivery) (rs : List Rider) (res : PlanningResult α)
    (h : plan dist cfg ds rs = .ok res)
    (hnd : (pendingIds ds).Nodup)
    (d : Delivery) (hd : d ∈ ds) (hp : d.status = .pending) :
    (res.assignments.countP (fun a => a.delivery_id == d.id) = 1 ∧
        d.id ∉ res.unassigned_deliveries) ∨
      (res.assignments.countP (fun a => a.delivery_id == d.id) = 0 ∧
        res.unassigned_deliveries.count d.id = 1) := by
  obtain ⟨ha, hu⟩ := plan_ok_elim dist cfg ds rs res h
  have hmem : d.id ∈ pendingIds ds := by
    simp only [pendingIds, List.mem_map, List.mem_filter]
    exact ⟨d, ⟨hd, by simp [hp]⟩, rfl⟩
  have hone : (pendingIds ds).count d.id = 1 := List.count_eq_one_of_mem hnd hmem
  have hmain := countDel_foldl dist cfg ds ⟨rs, [], []⟩ d.id
  have hinit : countDel (⟨rs, [], []⟩ : SolverState α) d.id = 0 := by
    simp [countDel]
  rw [hinit, hone] at hmain
  unfold countDel at hmain
  have hsum : res.assignments.countP (fun a => a.delivery_id == d.id) +
      res.unassigned_deliveries.count d.id = 1 := by
    rw [ha, hu]
    exact hmain
  rcases Nat.eq_zero_or_pos (res.assignments.countP (fun a => a.delivery_id == d.id)) with
    hz | hpos
  · right
    exact ⟨hz, by omega⟩
  · left
    have hcz : res.unassigned_deliveries.count d.id = 0 := by omega
    exact ⟨by omega, List.count_eq_zero.mp hcz⟩

/-- A valid but already-`assigned` input delivery, used to refute the
original form of C1. -/
def cexAssignedDelivery : Delivery :=
  ⟨1, ⟨0, 0⟩, ⟨0, 1⟩, 1, 1, 0, 1, .assigned⟩

/-- C1 counterexample: on a valid successful run whose input contains the
(already `assigned`) delivery with identifier 1, that identifier appears in
no Assignment and not in `unassigned_deliveries` either — "never neither"
fails for non-pending input deliveries. -/
theorem plan_partitions_pending_cex :
    cexAssignedDelivery.id = 1 ∧
      cexAssignedDelivery ∈ [cexAssignedDelivery] ∧
      (plan (fun _ _ => (0 : ℚ)) ⟨2, 30⟩ [cexAssignedDelivery] []).toOption.map
        (fun res => (res.assignments.countP (fun a => a.delivery_id == 1),
          res.unassigned_deliveries.count 1)) = some (0, 0) := by
  decide

/-- A valid pending input delivery, used to witness the amended C1. -/
def witPendingDelivery : Delivery :=
  ⟨1, ⟨0, 0⟩, ⟨0, 1⟩, 1, 1, 0, 1, .pending⟩

theorem plan_partitions_pending_witness :
    ((PlanningResult.mk ([] : List (Assignment ℚ)) [1]
          "0 assigned, 1 unassigned").assignments.countP
        (fun a => a.delivery_id == witPendingDelivery.id) = 1 ∧
      witPendingDelivery.id ∉
        (PlanningResult.mk ([] : List (Assignment ℚ)) [1]
          "0 assigned, 1 unassigned").unassigned_deliveries) ∨
    ((PlanningResult.mk ([] : List (Assignment ℚ)) [1]
          "0 assigned, 1 unassigned").assignments.countP
        (fun a => a.delivery_id == witPendingDelivery.id) = 0 ∧
      (PlanningResult.mk ([] : List (Assignment ℚ)) [1]
          "0 assigned, 1 unassigned").unassigned_deliveries.count
        witPendingDelivery.id = 1) :=
  plan_partitions_pending (fun _ _ => (0 : ℚ)) ⟨2, 30⟩ [witPendingDelivery] []
    ⟨[], [1], "0 assigned, 1 unassigned"⟩ (by decide) (by decide)
    witPendingDelivery (by decide) rfl

lemma rejectionReason_spec (d : Delivery) (pool : List Rider) :
    (rejectionReason d pool = .availability ↔ ∀ r ∈ pool, r.is_available = false) ∧
      (rejectionReason d pool = .capacity ↔
        ((∃ r ∈ pool, r.is_available = true) ∧
          ∀ r ∈ pool, r.is_available = true → capacityOk d r = false)) ∧
      (rejectionReason d pool = .shiftWindow ↔
        ((∃ r ∈ pool, r.is_available = true ∧ capacityOk d r = true) ∧
          ∀ r ∈ pool, r.is_available = true → capacityOk d r = true →
            shiftOk d r = false)) ∧
      (rejectionReason d pool = .location ↔
        (∃ r ∈ pool, r.is_available = true ∧ capacityOk d r = true ∧
          shiftOk d r = true)) := by
  have h1 : (pool.filter (fun r => r.is_available)).isEmpty = true ↔
      ∀ r ∈ pool, r.is_available = false := by
    rw [List.isEmpty_iff, List.filter_eq_nil_iff]
    simp
  have h2 : ((pool.filter (fun r => r.is_available)).filter
      (fun r => capacityOk d r)).isEmpty = true ↔
      ∀ r ∈ pool, r.is_available = true → capacityOk d r = false := by
    rw [List.isEmpty_iff, List.filter_eq_nil_iff]
    simp [List.mem_filter]
  have h3 : (((pool.filter (fun r => r.is_available)).filter
      (fun r => capacityOk d r)).filter (fun r => shiftOk d r)).isEmpty = true ↔
      ∀ r ∈ pool, r.is_available = true → capacityOk d r = true →
        shiftOk d r = false := by
    rw [List.isEmpty_iff, List.filter_eq_nil_iff]
    simp [List.mem_filter]
    tauto
  by_cases c1 : (pool.filter (fun r => r.is_available)).isEmpty = true
  · have hval : rejectionReason d pool = .availability := by
      simp only [rejectionReason]
      rw [if_pos c1]
    have hall : ∀ r ∈ pool, r.is_available = false := h1.mp c1
    have hnE1 : ¬∃ r ∈ pool, r.is_available = true := by
      rintro ⟨r, hr, ha⟩
      rw [hall r hr] at ha
      cases ha
    rw [hval]
    refine ⟨iff_of_true rfl hall, iff_of_false (by decide) ?_,
      iff_of_false (by decide) ?_, iff_of_false (by decide) ?_⟩
    · rintro ⟨hE, -⟩
      exact hnE1 hE
    · rintro ⟨⟨r, hr, ha, -⟩, -⟩
      exact hnE1 ⟨r, hr, ha⟩
    · rintro ⟨r, hr, ha, -⟩
      exact hnE1 ⟨r, hr, ha⟩
  · have hE1 : ∃ r ∈ pool, r.is_available = true := by
      rw [h1] at c1
      push_neg at c1
      obtain ⟨r, hr, ha⟩ := c1
      exact ⟨r, hr, by simpa using ha⟩
    have hnP1 : ¬∀ r ∈ pool, r.is_available = false := by
      intro hall
      obtain ⟨r, hr, ha⟩ := hE1
      rw [hall r hr] at ha
      cases ha
    by_cases c2 : ((pool.filter (fun r => r.is_available)).filter
        (fun r => capacityOk d r)).isEmpty = true
    · have hval : rejectionReason d pool = .capacity := by
        simp only [rejectionReason]
        rw [if_neg c1, if_pos c2]
      have hcap : ∀ r ∈ pool, r.is_available = true → capacityOk d r = false :=
        h2.mp c2
      have hnE2 : ¬∃ r ∈ pool, r.is_available = true ∧ capacityOk d r = true := by
        rintro ⟨r, hr, ha, hc⟩
        rw [hcap r hr ha] at hc
        cases hc
      rw [hval]
      refine ⟨iff_of_false (by decide) hnP1, iff_of_true rfl ⟨hE1, hcap⟩,
        iff_of_false (by decide) ?_, iff_of_false (by decide) ?_⟩
      · rintro ⟨hE, -⟩
        exact hnE2 hE
      · rintro ⟨r, hr, ha, hc, -⟩
        exact hnE2 ⟨r, hr, ha, hc⟩
    · have hE2 : ∃ r ∈ pool, r.is_available = true ∧ capacityOk d r = true := by
        rw [h2] at c2
        push_neg at c2
        obtain ⟨r, hr, ha, hc⟩ := c2
        exact ⟨r, hr, ha, by simpa using hc⟩
      have hnP2 : ¬((∃ r ∈ pool, r.is_available = true) ∧
          ∀ r ∈ pool, r.is_available = true → capacityOk d r = false) := by
        rintro ⟨-, hcap⟩
        obtain ⟨r, hr, ha, hc⟩ := hE2
        rw [hcap r hr ha] at hc
        cases hc
      by_cases c3 : (((pool.filter (fun r => r.is_available)).filter
          (fun r => capacityOk d r)).filter (fun r => shiftOk d r)).isEmpty = true
      · have hval : rejectionReason d pool = .shiftWindow := by
          simp only [rejectionReason]
          rw [if_neg c1, if_neg c2, if_pos c3]
        have hsh : ∀ r ∈ pool, r.is_available = true → capacityOk d r = true →
            shiftOk d r = false := h3.mp c3
        have hnE3 : ¬∃ r ∈ pool, r.is_available = true ∧ capacityOk d r = true ∧
            shiftOk d r = true := by
          rintro ⟨r, hr, ha, hc, hssh⟩
          rw [hsh r hr ha hc] at hssh
          cases hssh
        rw [hval]
        exact ⟨iff_of_false (by decide) hnP1, iff_of_false (by decide) hnP2,
          iff_of_true rfl ⟨hE2, hsh⟩, iff_of_false (by decide) hnE3⟩
      · have hval : rejectionReason d pool = .location := by
          simp only [rejectionReason]
          rw [if_neg c1, if_neg c2, if_neg c3]
        have hE3 : ∃ r ∈ pool, r.is_available = true ∧ capacityOk d r = true ∧
            shiftOk d r = true := by
          rw [h3] at c3
          push_neg at c3
          obtain ⟨r, hr, ha, hc, hssh⟩ := c3
          exact ⟨r, hr, ha, hc, by simpa using hssh⟩
        have hnP3 : ¬((∃ r ∈ pool, r.is_available = true ∧ capacityOk d r = true) ∧
            ∀ r ∈ pool, r.is_available = true → capacityOk d r = true →
              shiftOk d r = false) := by
          rintro ⟨-, hsh⟩
          obtain ⟨r, hr, ha, hc, hssh⟩ := hE3
          rw [hsh r hr ha hc] at hssh
          cases hssh
        rw [hval]
        exact ⟨iff_of_false (by decide) hnP1, iff_of_false (by decide) hnP2,
          iff_of_false (by decide) hnP3, iff_of_true rfl hE3⟩

/-- C6: when no rider in the current pool satisfies all four eligibility
conditions, the solver step leaves assignments and pool untouched and
records the delivery as unassigned with a reason determined by the first
condition, in priority order availability > capacity > shift window >
location, that eliminated every remaining candidate; under the
no-eligible-rider hypothesis the location reason is reported exactly when
some candidate passed the first three conditions (and then every such
candidate lacks a known location). -/
theorem solver_unassigned_reason {α : Type} [LinearOrderedField α]
    (dist : Coordinate → Coordinate → α) (cfg : Config α)
    (st : SolverState α) (d : Delivery)
    (hp : d.status = .pending)
    (hno : ∀ r ∈ st.pool, eligible d r = false) :
    solveStep dist cfg st d =
        { st with unassigned := st.unassigned ++ [(d.id, rejectionReason d st.pool)] } ∧
      (rejectionReason d st.pool = .availability ↔
        ∀ r ∈ st.pool, r.is_available = false) ∧
      (rejectionReason d st.pool = .capacity ↔
        ((∃ r ∈ st.pool, r.is_available = true) ∧
          ∀ r ∈ st.pool, r.is_available = true → capacityOk d r = false)) ∧
      (rejectionReason d st.pool = .shiftWindow ↔
        ((∃ r ∈ st.pool, r.is_available = true ∧ capacityOk d r = true) ∧
          ∀ r ∈ st.pool, r.is_available = true → capacityOk d r = true →
            shiftOk d r = false)) ∧
      (rejectionReason d st.pool = .location ↔
        (∃ r ∈ st.pool, r.is_available = true ∧ capacityOk d r = true ∧
          shiftOk d r = true)) ∧
      (∀ r ∈ st.pool, r.is_available = true → capacityOk d r = true →
        shiftOk d r = true → locationOk r = false) := by
  obtain ⟨hA, hC, hS, hL⟩ := rejectionReason_spec d st.pool
  have hfilter : st.pool.filter (fun r => eligible d r) = [] := by
    rw [List.filter_eq_nil_iff]
    intro r hr
    simp [hno r hr]
  have hstep : solveStep dist cfg st d =
      { st with unassigned := st.unassigned ++ [(d.id, rejectionReason d st.pool)] } := by
    unfold solveStep
    rw [if_pos hp, hfilter]
    rfl
  refine ⟨hstep, hA, hC, hS, hL, ?_⟩
  intro r hr ha hc hs
  have h := hno r hr
  simp [eligible, ha, hc, hs] at h
  exact h

theorem solver_unassigned_reason_witness :
    solveStep (fun _ _ => (0 : ℚ)) ⟨2, 30⟩
        ⟨[⟨7, 10, 1, some ⟨0, 0⟩, true, none⟩], [], []⟩
        ⟨1, ⟨0, 0⟩, ⟨0, 1⟩, 50, 1, 0, 1, .pending⟩ =
      { pool := [⟨7, 10, 1, some ⟨0, 0⟩, true, none⟩]
        assignments := []
        unassigned := [(1, rejectionReason ⟨1, ⟨0, 0⟩, ⟨0, 1⟩, 50, 1, 0, 1, .pending⟩
          [⟨7, 10, 1, some ⟨0, 0⟩, true, none⟩])] } ∧
      rejectionReason ⟨1, ⟨0, 0⟩, ⟨0, 1⟩, 50, 1, 0, 1, .pending⟩
          [⟨7, 10, 1, some ⟨0, 0⟩, true, none⟩] = .capacity :=
  ⟨(solver_unassigned_reason (fun _ _ => (0 : ℚ)) ⟨2, 30⟩
      ⟨[⟨7, 10, 1, some ⟨0, 0⟩, true, none⟩], [], []⟩
      ⟨1, ⟨0, 0⟩, ⟨0, 1⟩, 50, 1, 0, 1, .pending⟩ rfl (by decide)).1,
    by decide⟩

/-- C5: for a pending delivery whose eligible-rider list is nonempty, the
solver step selects the rider whose (distance to the delivery origin,
identifier) key is minimal in the deterministic lexicographic order —
smaller distance first, ties broken by ascending identifier — consumes it,
and emits the corresponding Assignment; with pairwise-distinct rider
identifiers this minimiser is unique. -/
theorem solver_selects_nearest {α : Type} [LinearOrderedField α]
    (dist : Coordinate → Coordinate → α) (cfg : Config α)
    (st : SolverState α) (d : Delivery)
    (hp : d.status = .pending)
    (hne : st.pool.filter (fun r => eligible d r) ≠ []) :
    ∃ r, selectBest (rankKey dist d) (st.pool.filter (fun r => eligible d r)) = some r ∧
      r ∈ st.pool.filter (fun r => eligible d r) ∧
      (∀ s ∈ st.pool.filter (fun r => eligible d r),
        lexLE (rankKey dist d r) (rankKey dist d s) = true) ∧
      (((st.pool.filter (fun r => eligible d r)).map Rider.id).Nodup →
        ∀ s ∈ st.pool.filter (fun r => eligible d r),
          (∀ t ∈ st.pool.filter (fun r => eligible d r),
            lexLE (rankKey dist d s) (rankKey dist d t) = true) → s = r) ∧
      solveStep dist cfg st d =
        { pool := st.pool.filter (fun s => s.id ≠ r.id)
          assignments := st.assignments ++
            [{ delivery_id := d.id
               rider_id := r.id
               reason := "nearest available rider, capacity sufficient"
               route_details := routeEstimate dist cfg d.origin d.destination }]
          unassigned := st.unassigned } := by
  cases hsel : selectBest (rankKey dist d) (st.pool.filter (fun r => eligible d r)) with
  | none => exact absurd ((selectBest_eq_none _ _).mp hsel) hne
  | some r =>
      have hrmem := selectBest_mem (rankKey dist d) hsel
      refine ⟨r, rfl, hrmem, selectBest_min (rankKey dist d) hsel, ?_, ?_⟩
      · intro hnodup s hsmem hsmin
        have h₁ := selectBest_min (rankKey dist d) hsel s hsmem
        have h₂ := hsmin r hrmem
        have hkey := lexLE_antisymm h₂ h₁
        have hid : s.id = r.id := congrArg Prod.snd hkey
        exact List.inj_on_of_nodup_map hnodup hsmem hrmem hid
      · unfold solveStep
        rw [if_pos hp, hsel]

theorem solver_selects_nearest_witness :
    ∃ r, selectBest (rankKey (fun _ _ => (0 : ℚ)) ⟨1, ⟨0, 0⟩, ⟨0, 1⟩, 1, 1, 0, 1, .pending⟩)
        (([⟨3, 10, 1, some ⟨0, 0⟩, true, none⟩, ⟨2, 10, 1, some ⟨0, 0⟩, true, none⟩] :
            List Rider).filter
          (fun s => eligible ⟨1, ⟨0, 0⟩, ⟨0, 1⟩, 1, 1, 0, 1, .pending⟩ s)) = some r ∧
      r ∈ (([⟨3, 10, 1, some ⟨0, 0⟩, true, none⟩, ⟨2, 10, 1, some ⟨0, 0⟩, true, none⟩] :
            List Rider).filter
          (fun s => eligible ⟨1, ⟨0, 0⟩, ⟨0, 1⟩, 1, 1, 0, 1, .pending⟩ s)) ∧
      (∀ s ∈ (([⟨3, 10, 1, some ⟨0, 0⟩, true, none⟩, ⟨2, 10, 1, some ⟨0, 0⟩, true, none⟩] :
            List Rider).filter
          (fun s => eligible ⟨1, ⟨0, 0⟩, ⟨0, 1⟩, 1, 1, 0, 1, .pending⟩ s)),
        lexLE (rankKey (fun _ _ => (0 : ℚ)) ⟨1, ⟨0, 0⟩, ⟨0, 1⟩, 1, 1, 0, 1, .pending⟩ r)
          (rankKey (fun _ _ => (0 : ℚ)) ⟨1, ⟨0, 0⟩, ⟨0, 1⟩, 1, 1, 0, 1, .pending⟩ s) = true) ∧
      ((((([⟨3, 10, 1, some ⟨0, 0⟩, true, none⟩, ⟨2, 10, 1, some ⟨0, 0⟩, true, none⟩] :
            List Rider).filter
          (fun s => eligible ⟨1, ⟨0, 0⟩, ⟨0, 1⟩, 1, 1, 0, 1, .pending⟩ s))).map Rider.id).Nodup →
        ∀ s ∈ (([⟨3, 10, 1, some ⟨0, 0⟩, true, none⟩, ⟨2, 10, 1, some ⟨0, 0⟩, true, none⟩] :
            List Rider).filter
          (fun s => eligible ⟨1, ⟨0, 0⟩, ⟨0, 1⟩, 1, 1, 0, 1, .pending⟩ s)),
          (∀ t ∈ (([⟨3, 10, 1, some ⟨0, 0⟩, true, none⟩, ⟨2, 10, 1, some ⟨0, 0⟩, true, none⟩] :
            List Rider).filter
          (fun s => eligible ⟨1, ⟨0, 0⟩, ⟨0, 1⟩, 1, 1, 0, 1, .pending⟩ s)),
            lexLE (rankKey (fun _ _ => (0 : ℚ)) ⟨1, ⟨0, 0⟩, ⟨0, 1⟩, 1, 1, 0, 1, .pending⟩ s)
              (rankKey (fun _ _ => (0 : ℚ)) ⟨1, ⟨0, 0⟩, ⟨0, 1⟩, 1, 1, 0, 1, .pending⟩ t) = true) →
            s = r) ∧
      solveStep (fun _ _ => (0 : ℚ)) ⟨2, 30⟩
          ⟨[⟨3, 10, 1, some ⟨0, 0⟩, true, none⟩, ⟨2, 10, 1, some ⟨0, 0⟩, true, none⟩], [], []⟩
          ⟨1, ⟨0, 0⟩, ⟨0, 1⟩, 1, 1, 0, 1, .pending⟩ =
        { pool := ([⟨3, 10, 1, some ⟨0, 0⟩, true, none⟩, ⟨2, 10, 1, some ⟨0, 0⟩, true, none⟩] :
            List Rider).filter (fun s => s.id ≠ r.id)
          assignments := [] ++
            [{ delivery_id := 1
               rider_id := r.id
               reason := "nearest available rider, capacity sufficient"
               route_details := routeEstimate (fun _ _ => (0 : ℚ)) ⟨2, 30⟩ ⟨0, 0⟩ ⟨0, 1⟩ }]
          unassigned := [] } :=
  solver_selects_nearest (fun _ _ => (0 : ℚ)) ⟨2, 30⟩
    ⟨[⟨3, 10, 1, some ⟨0, 0⟩, true, none⟩, ⟨2, 10, 1, some ⟨0, 0⟩, true, none⟩], [], []⟩
    ⟨1, ⟨0, 0⟩, ⟨0, 1⟩, 1, 1, 0, 1, .pending⟩ rfl (by decide)

lemma sin_sq_swap (x y : ℝ) :
    Real.sin ((x - y) / 2) ^ 2 = Real.sin ((y - x) / 2) ^ 2 := by
  have h : (x - y) / 2 = -((y - x) / 2) := by ring
  rw [h, Real.sin_neg, neg_sq]

/-- C8 (amended): the haversine great-circle distance is symmetric,
`haversineDist a b = haversineDist b a`, and vanishes on equal inputs,
`haversineDist a a = 0`.  The original claim's converse — zero only on
equal inputs — is false for the haversine formula: distinct valid
coordinates on a pole (or across the antimeridian) are at distance zero. -/
theorem haversine_symm_and_self :
    (∀ a b : Coordinate, haversineDist a b = haversineDist b a) ∧
      ∀ a : Coordinate, haversineDist a a = 0 := by
  constructor
  · intro a b
    simp only [haversineDist]
    congr 1
    congr 1
    congr 1
    rw [sin_sq_swap (deg2rad b.lat) (deg2rad a.lat),
      sin_sq_swap (deg2rad b.lon) (deg2rad a.lon)]
    ring
  · intro a
    simp [haversineDist]

/-- C8 counterexample: the two valid coordinates (90, 0) and (90, 1) —
both on the north pole, differing in longitude — are distinct, yet their
haversine distance is 0, refuting "distance(a,b) is zero iff a == b". -/
theorem haversine_zero_iff_cex :
    validCoordinate ⟨90, 0⟩ = true ∧ validCoordinate ⟨90, 1⟩ = true ∧
      (⟨90, 0⟩ : Coordinate) ≠ ⟨90, 1⟩ ∧ haversineDist ⟨90, 0⟩ ⟨90, 1⟩ = 0 := by
  refine ⟨by decide, by decide, by decide, ?_⟩
  have h90 : deg2rad 90 = Real.pi / 2 := by
    simp [deg2rad]
    ring
  simp [haversineDist, h90, Real.cos_pi_div_two]

theorem eligible_iff_four_conditions_witness :
    ((⟨1, 10, 1, some ⟨0, 0⟩, true, none⟩ : Rider).is_available = true ∧
      ((⟨1, ⟨0, 0⟩, ⟨0, 1⟩, 5, 1, 10, 12, .pending⟩ : Delivery).weight_kg ≤
          (⟨1, 10, 1, some ⟨0, 0⟩, true, none⟩ : Rider).capacity_weight_kg ∧
        (⟨1, ⟨0, 0⟩, ⟨0, 1⟩, 5, 1, 10, 12, .pending⟩ : Delivery).volume_m3 ≤
          (⟨1, 10, 1, some ⟨0, 0⟩, true, none⟩ : Rider).capacity_volume_m3) ∧
      (∀ s e, (⟨1, 10, 1, some ⟨0, 0⟩, true, none⟩ : Rider).shift_window = some (s, e) →
        s ≤ (⟨1, ⟨0, 0⟩, ⟨0, 1⟩, 5, 1, 10, 12, .pending⟩ : Delivery).delivery_window_start ∧
          (⟨1, ⟨0, 0⟩, ⟨0, 1⟩, 5, 1, 10, 12, .pending⟩ : Delivery).delivery_window_end ≤ e) ∧
      (⟨1, 10, 1, some ⟨0, 0⟩, true, none⟩ : Rider).current_location ≠ none) :=
  (eligible_iff_four_conditions ⟨1, ⟨0, 0⟩, ⟨0, 1⟩, 5, 1, 10, 12, .pending⟩
    ⟨1, 10, 1, some ⟨0, 0⟩, true, none⟩).mp (by decide)

theorem routeEstimate_spec_witness :
    (routeEstimate (fun _ _ => (10 : ℚ)) ⟨2, 30⟩ ⟨0, 0⟩ ⟨0, 1⟩).distance_km =
        (fun _ _ => (10 : ℚ)) (⟨0, 0⟩ : Coordinate) (⟨0, 1⟩ : Coordinate) *
          (⟨2, 30⟩ : Config ℚ).detour_factor ∧
      (routeEstimate (fun _ _ => (10 : ℚ)) ⟨2, 30⟩ ⟨0, 0⟩ ⟨0, 1⟩).estimated_time_minutes =
        (routeEstimate (fun _ _ => (10 : ℚ)) ⟨2, 30⟩ ⟨0, 0⟩ ⟨0, 1⟩).distance_km /
          (⟨2, 30⟩ : Config ℚ).average_speed_kmh * 60 ∧
      (routeEstimate (fun _ _ => (10 : ℚ)) ⟨2, 30⟩ ⟨0, 0⟩ ⟨0, 1⟩).waypoints =
        [⟨0, 0⟩, ⟨(0 + 0) / 2, (0 + 1) / 2⟩, ⟨0, 1⟩] ∧
      (routeEstimate (fun _ _ => (10 : ℚ)) ⟨2, 30⟩ ⟨0, 0⟩ ⟨0, 1⟩).waypoints.head? =
        some ⟨0, 0⟩ ∧
      (routeEstimate (fun _ _ => (10 : ℚ)) ⟨2, 30⟩ ⟨0, 0⟩ ⟨0, 1⟩).waypoints.getLast? =
        some ⟨0, 1⟩ :=
  routeEstimate_spec (fun _ _ => (10 : ℚ)) ⟨2, 30⟩ ⟨0, 0⟩ ⟨0, 1⟩
